import Mathlib

/-
Verification of the performance subsystem of vitest-helpers
(src/performance/index.ts): the ParallelExecutor (bounded-concurrency task
executor with retry/timeout), the CacheManager (TTL-based on-disk cache) and
the MemoryOptimizer (memory-pressure advisor).

Shallow embedding conventions:
  - A JavaScript value that may be `undefined` is modelled as `Option β`
    (`none` = undefined).  A JS sparse results array of length n is modelled
    as `List (Option β)`: a hole reads as `undefined`, exactly as in JS.
  - A task is a zero-argument async callable; the executor only observes the
    outcome of each invocation, so a task is modelled by the outcomes of its
    successive invocations (1-indexed): `Nat → Except String (Option β)`.
    A timeout surfaces as a rejection (`executeWithTimeout` races the task
    against a rejecting timer), so timeouts are ordinary `Except.error`s.
  - `executeParallel` launches every per-index async closure synchronously in
    `tasks.map`; each closure then suspends at its first `await`.  Completions
    are therefore processed one at a time on the event loop, in some
    completion order; the model takes that order as an explicit parameter
    (a list of task indices) and folds the per-completion state update over it.
  - Time is milliseconds since the epoch, as `Int` (JS number arithmetic on
    integral millisecond timestamps is exact).
-/

/- ===== ParallelExecutor (src/performance/index.ts lines 30-99) ===== -/

/-- ParallelConfig from the source: maxWorkers, timeout (ms), retryFailed,
maxRetries. -/
structure ParallelConfig where
  maxWorkers : Nat
  timeout : Nat
  retryFailed : Bool
  maxRetries : Nat
  deriving Repr, DecidableEq

/-- A task, observed through the outcomes of its successive invocations
(invocation numbers start at 1).  `Except.ok v` is a fulfilled promise with
value `v : Option β` (`none` = resolved with undefined); `Except.error e` is a
rejection or timeout with message `e`. -/
abbrev TaskModel (β : Type) := Nat → Except String (Option β)

/-- Whether an attempt outcome is a success. -/
def isOkB {α : Type} : Except String α → Bool
  | Except.ok _ => true
  | Except.error _ => false

/-- Observable behaviour of one `retryTask` call: its final result, the list
of backoff delays awaited (in ms, in order), and the number of attempts made. -/
structure RetryOut (α : Type) where
  result : Except String α
  delays : List Nat
  attempts : Nat
  deriving Repr

/-- The loop body of `ParallelExecutor.retryTask` (source lines 85-98):
`for (attempt = 1; attempt <= maxRetries; attempt++) { try return await task()
catch { if (attempt === maxRetries) throw; await sleep(2^attempt * 100) } }`,
followed by `throw new Error('Max retries exceeded')` when the loop exits.
`fuel` counts the remaining loop iterations, `attempt` is the loop counter;
`retryTask` enters with `fuel = maxRetries`, `attempt = 1`. -/
def retryLoop {α : Type} (outcomes : Nat → Except String α) (maxRetries : Nat) :
    Nat → Nat → RetryOut α
  | 0, _ => ⟨Except.error "Max retries exceeded", [], 0⟩
  | fuel + 1, attempt =>
    match outcomes attempt with
    | Except.ok v => ⟨Except.ok v, [], 1⟩
    | Except.error e =>
      if attempt = maxRetries then ⟨Except.error e, [], 1⟩
      else
        let r := retryLoop outcomes maxRetries fuel (attempt + 1)
        ⟨r.result, 2 ^ attempt * 100 :: r.delays, r.attempts + 1⟩

/-- `ParallelExecutor.retryTask` (source lines 85-98), applied to the outcome
function of the task's invocations as seen from inside `retryTask` (its
attempt `a` is the task's invocation `a` from its own numbering). -/
def ParallelExecutor.retryTask {α : Type} (outcomes : Nat → Except String α)
    (maxRetries : Nat) : RetryOut α :=
  retryLoop outcomes maxRetries maxRetries 1

/-- Mutable state of one `executeParallel` call while completions are being
processed: the `results` array (slot = `none` while unset, i.e. a JS hole),
the `errors` array, the list of `onProgress` invocations made so far (each a
pair `(completed, total)`), and the outcomes of the detached `retryTask`
promises (index paired with the retry's final result; `Promise.allSettled`
discards these). -/
structure ExecState (β : Type) where
  slots : List (Option β)
  errors : List String
  progress : List (Nat × Nat)
  retries : List (Nat × Except String (Option β))

/-- `results.filter(r => r !== undefined).length` on the sparse results array:
holes are skipped by `filter` and assigned `undefined` values fail the test,
so the count is the number of slots holding a defined value. -/
def countDefined {β : Type} (slots : List (Option β)) : Nat :=
  (slots.filter Option.isSome).length

/-- Processing of the first-attempt settlement of task `i` (the body of the
async closure in source lines 52-65): on fulfilment the value is stored at
slot `i` and `onProgress` is invoked with the defined-slot count and the task
total; on rejection the error is pushed onto `errors` and, when `retryFailed`,
`retryTask` is started on the same callable (its outcomes are the task's
invocations from 2 on) with its result returned to `Promise.allSettled`,
which discards it. -/
def execSettle {β : Type} (cfg : ParallelConfig) (tasks : List (TaskModel β))
    (st : ExecState β) (i : Nat) : ExecState β :=
  match tasks[i]? with
  | none => st
  | some t =>
    match t 1 with
    | Except.ok v =>
      let slots := st.slots.set i v
      { st with slots := slots
                progress := st.progress ++ [(countDefined slots, tasks.length)] }
    | Except.error e =>
      let st1 := { st with errors := st.errors ++ [e] }
      if cfg.retryFailed then
        { st1 with retries := st1.retries ++
            [(i, (ParallelExecutor.retryTask (fun a => t (a + 1)) cfg.maxRetries).result)] }
      else st1

/-- Whether the first attempt of task `i` of the batch succeeds (the slot is
assigned and `onProgress` fires iff this holds). -/
def firstAttemptOk {β : Type} (tasks : List (TaskModel β)) (i : Nat) : Bool :=
  match tasks[i]? with
  | some t => isOkB (t 1)
  | none => false

/-- Observable outcome of one `executeParallel` call.  `threw` is whether the
aggregate `Parallel execution failed` error was thrown after
`Promise.allSettled` (source lines 69-71: thrown iff `errors` is nonempty);
when it is not thrown the caller receives `results`. -/
structure ExecOut (β : Type) where
  results : List (Option β)
  errors : List String
  progress : List (Nat × Nat)
  retries : List (Nat × Except String (Option β))
  threw : Bool

/-- `ParallelExecutor.executeParallel` (source lines 44-74), parameterised by
the completion order of the first attempts (a list of task indices). -/
def ParallelExecutor.executeParallel {β : Type} (cfg : ParallelConfig)
    (tasks : List (TaskModel β)) (order : List Nat) : ExecOut β :=
  let st := order.foldl (execSettle cfg tasks)
    ⟨List.replicate tasks.length none, [], [], []⟩
  ⟨st.slots, st.errors, st.progress, st.retries, !st.errors.isEmpty⟩

/-- The aggregate error message thrown by `executeParallel` when some first
attempt failed, `null` otherwise. -/
def batchError {β : Type} (o : ExecOut β) : Option String :=
  if o.threw then
    some ("Parallel execution failed: " ++ String.intercalate ", " o.errors)
  else none

/- ===== Start/settle trace of executeParallel, for the concurrency bound ===== -/

/-- An observable scheduling event of `executeParallel`: task `i`'s underlying
operation starts (its callable is invoked), or task `i`'s first attempt
settles. -/
inductive ExecEvent where
  | start (i : Nat)
  | settle (i : Nat)
  deriving Repr, DecidableEq

/-- Whether an event is a task start. -/
def ExecEvent.isStart : ExecEvent → Bool
  | ExecEvent.start _ => true
  | ExecEvent.settle _ => false

/-- Whether an event is a task settlement. -/
def ExecEvent.isSettle : ExecEvent → Bool
  | ExecEvent.start _ => false
  | ExecEvent.settle _ => true

/-- Number of tasks in flight after a trace: started and not yet settled. -/
def inFlight (tr : List ExecEvent) : Nat :=
  (tr.filter ExecEvent.isStart).length - (tr.filter ExecEvent.isSettle).length

/-- The event trace of `executeParallel` on `n` tasks (source lines 52-67):
`tasks.map(async (task, index) => { ... await ... })` invokes every `task()`
synchronously before any closure resumes from its first `await`, so all `n`
start events precede every settle event; settles then occur in completion
order. -/
def executeParallelTrace (n : Nat) (order : List Nat) : List ExecEvent :=
  (List.range n).map ExecEvent.start ++ order.map ExecEvent.settle

/- ===== CacheManager (src/performance/index.ts lines 101-191) ===== -/

/-- A JSON-serializable value, as produced by `JSON.parse` of a file written
with `JSON.stringify` (numbers restricted to integers; the cached payloads in
the claims are plain JSON data). -/
inductive Json where
  | null
  | bool (b : Bool)
  | num (n : Int)
  | str (s : String)
  | arr (elems : List Json)
  | obj (fields : List (String × Json))

/-- CacheConfig from the source: enabled, directory, maxAge (ms),
compression. -/
structure CacheConfig where
  enabled : Bool
  directory : String
  maxAge : Int
  compression : Bool

/-- An on-disk path `directory/name`, as produced by
`path.join(this.cacheDir, ...)` (`path.resolve` of the configured directory is
modelled as the directory string itself). -/
structure CachePath where
  dir : String
  name : String
  deriving DecidableEq

/-- A cache file on disk: its (parsed) JSON content and its mtime in ms.
The file content is `JSON.stringify` of the cached value; since
`JSON.parse ∘ JSON.stringify` is the identity on JSON-serializable values,
the content is modelled by the `Json` value itself. -/
structure CacheFile where
  content : Json
  mtime : Int

/-- The filesystem visible to the CacheManager: the set of existing
directories and the files, as an association list from path to file. -/
structure Fs where
  dirs : List String
  files : List (CachePath × CacheFile)

/-- The file stored at a path, if any (`fs.stat` + `fs.readFile`). -/
def Fs.findFile (fs : Fs) (p : CachePath) : Option CacheFile :=
  (fs.files.find? (fun e => decide (e.fst = p))).map (fun e => e.snd)

/-- `fs.unlink`: remove the file at a path. -/
def Fs.eraseFile (fs : Fs) (p : CachePath) : Fs :=
  { fs with files := fs.files.filter (fun e => decide (e.fst ≠ p)) }

/-- `fs.writeFile`: overwrite the file at a path with new content, stamping
the current time as mtime.  Only meaningful when the parent directory exists
(`CacheManager.set` checks that and models ENOENT otherwise). -/
def Fs.writeFile (fs : Fs) (p : CachePath) (c : Json) (now : Int) : Fs :=
  { fs with files := (p, ⟨c, now⟩) :: fs.files.filter (fun e => decide (e.fst ≠ p)) }

/-- A filesystem is well formed when every file lives in an existing
directory (a real filesystem cannot hold a file under a missing directory). -/
def Fs.wf (fs : Fs) : Prop :=
  ∀ e ∈ fs.files, e.fst.dir ∈ fs.dirs

/-- The md5 hex digest used for key-to-file mapping
(`crypto.createHash('md5').update(key).digest('hex')`): an external crypto
primitive, modelled as a deterministic function of the key — every claim
depends only on its determinism, never on digest values. -/
def md5Hex (key : String) : String := key

/-- `CacheManager.getFilePath` (source lines 187-190):
`path.join(this.cacheDir, hash + '.json')`. -/
def CacheManager.getFilePath (cfg : CacheConfig) (key : String) : CachePath :=
  ⟨cfg.directory, md5Hex key ++ ".json"⟩

/-- `CacheManager.init` (source lines 116-119): no-op when disabled,
otherwise `mkdir -p` of the cache directory. -/
def CacheManager.init (cfg : CacheConfig) (fs : Fs) : Fs :=
  if cfg.enabled = false then fs
  else if cfg.directory ∈ fs.dirs then fs else { fs with dirs := cfg.directory :: fs.dirs }

/-- `CacheManager.get` (source lines 121-138): `null` when disabled; stat the
key's file (a missing file throws, caught as `null`); if its age
`Date.now() - mtime` strictly exceeds `maxAge`, unlink it and return `null`;
otherwise read and parse it.  Returns the value (or `null` = `none`) and the
filesystem after the call. -/
def CacheManager.get (cfg : CacheConfig) (fs : Fs) (now : Int) (key : String) :
    Option Json × Fs :=
  if cfg.enabled = false then (none, fs)
  else
    match fs.findFile (CacheManager.getFilePath cfg key) with
    | none => (none, fs)
    | some f =>
      if now - f.mtime > cfg.maxAge then
        (none, fs.eraseFile (CacheManager.getFilePath cfg key))
      else (some f.content, fs)

/-- `CacheManager.set` (source lines 140-150): no-op when disabled; otherwise
serialize and write the value at the key's path.  When the cache directory
does not exist the write rejects with ENOENT, which is caught and logged
(`console.warn`) — the Bool records whether that warning was emitted.  The
call never throws. -/
def CacheManager.set (cfg : CacheConfig) (fs : Fs) (now : Int) (key : String)
    (value : Json) : Fs × Bool :=
  if cfg.enabled = false then (fs, false)
  else if cfg.directory ∈ fs.dirs then
    (fs.writeFile (CacheManager.getFilePath cfg key) value now, false)
  else (fs, true)

/- ===== MemoryOptimizer (src/performance/index.ts lines 193-242) ===== -/

/-- MemoryConfig from the source: gcThreshold (MB), forceGC, maxHeapSize
(MB).  Thresholds are JS numbers; the integral-and-dyadic arithmetic the
advisor performs on them is exact, so they are modelled as rationals. -/
structure MemoryConfig where
  gcThreshold : ℚ
  forceGC : Bool
  maxHeapSize : ℚ

/-- A `process.memoryUsage()` sample, in bytes. -/
structure MemUsage where
  heapUsed : ℚ
  heapTotal : ℚ
  external : ℚ
  rss : ℚ

/-- `MemoryOptimizer.shouldGC` (source lines 205-209):
`usage.heapUsed / 1024 / 1024 > this.config.gcThreshold`. -/
def MemoryOptimizer.shouldGC (cfg : MemoryConfig) (usage : MemUsage) : Bool :=
  decide (usage.heapUsed / 1024 / 1024 > cfg.gcThreshold)

/- ===== Concrete scenario inputs ===== -/

/-- A task whose first invocation rejects with "boom" and whose second
invocation fulfils with 42. -/
def c1Task : TaskModel Nat :=
  fun inv => if inv = 1 then Except.error "boom" else Except.ok (some 42)

/-- The executor configuration of the concrete scenarios: retries enabled,
`maxRetries = 3`. -/
def cfgRetry : ParallelConfig := ⟨4, 30000, true, 3⟩

/-- The always-succeeding first task of the 3-task progress scenario. -/
def taskA : TaskModel Nat := fun _ => Except.ok (some 10)

/-- The second task of the scenario: rejects on its first two invocations,
fulfils with 20 from the third on. -/
def taskB : TaskModel Nat :=
  fun inv => if inv ≤ 2 then Except.error "b" else Except.ok (some 20)

/-- The always-succeeding third task of the scenario. -/
def taskC : TaskModel Nat := fun _ => Except.ok (some 30)

/-- A task that rejects on every invocation (it exhausts all retries). -/
def taskDead : TaskModel Nat := fun _ => Except.error "dead"

/-- A task that fulfils with the undefined-like value on every invocation. -/
def taskUndef : TaskModel Nat := fun _ => Except.ok none

/-- An enabled cache configuration with the default 24h TTL. -/
def cacheCfg : CacheConfig := ⟨true, ".vitest-cache", 86400000, false⟩

/-- An enabled cache configuration with a short 1s TTL. -/
def cacheCfgShort : CacheConfig := ⟨true, ".vitest-cache", 1000, false⟩

/-- A filesystem holding only the initialised cache directory. -/
def fsWithDir : Fs := ⟨[".vitest-cache"], []⟩

/-- A filesystem holding the cache directory and one entry for key "k"
written at time 0. -/
def fsStale : Fs :=
  ⟨[".vitest-cache"], [(⟨".vitest-cache", "k.json"⟩, ⟨Json.num 7, 0⟩)]⟩

/-- The empty filesystem: `init` was never called, no directory exists. -/
def fsEmpty : Fs := ⟨[], []⟩


/- ===== Theorems ===== -/

/-- Whenever the retry loop makes at least one iteration, it makes at least
one attempt. -/
theorem retryLoop_attempts_pos {α : Type} (o : Nat → Except String α) (m : Nat) :
    ∀ fuel attempt, 1 ≤ fuel → 1 ≤ (retryLoop o m fuel attempt).attempts := by
  intro fuel attempt h
  cases fuel with
  | zero => omega
  | succ fuel =>
    simp only [retryLoop]
    cases ho : o attempt with
    | ok v => simp
    | error e =>
      by_cases hm : attempt = m
      · simp [hm]
      · simp [hm]

/-- Backoff shape of the retry loop: entered at loop counter `attempt` with
`fuel` iterations remaining (`fuel + attempt = maxRetries + 1`), the delays it
awaits are exactly `2 ^ a * 100` for `a` ranging over the attempts that
failed and were followed by another attempt — one delay between consecutive
attempts, none after the final one. -/
theorem retryLoop_delays {α : Type} (o : Nat → Except String α) (m : Nat) :
    ∀ fuel attempt, fuel + attempt = m + 1 →
      (retryLoop o m fuel attempt).delays =
        (List.range' attempt ((retryLoop o m fuel attempt).attempts - 1)).map
          (fun a => 2 ^ a * 100) := by
  intro fuel
  induction fuel with
  | zero => intro attempt _; simp [retryLoop]
  | succ fuel ih =>
    intro attempt h
    simp only [retryLoop]
    cases ho : o attempt with
    | ok v => simp
    | error e =>
      by_cases hm : attempt = m
      · simp [hm]
      · simp only [hm, if_false]
        have hfuel : 1 ≤ fuel := by omega
        have hpos := retryLoop_attempts_pos o m fuel (attempt + 1) hfuel
        have hrec := ih (attempt + 1) (by omega)
        obtain ⟨k, hk⟩ : ∃ k, (retryLoop o m fuel (attempt + 1)).attempts = k + 1 :=
          ⟨(retryLoop o m fuel (attempt + 1)).attempts - 1,
            (Nat.succ_pred_eq_of_pos hpos).symm⟩
        rw [hk] at hrec
        simp only [Nat.add_sub_cancel] at hrec
        show 2 ^ attempt * 100 :: (retryLoop o m fuel (attempt + 1)).delays =
          (List.range' attempt ((retryLoop o m fuel (attempt + 1)).attempts + 1 - 1)).map
            (fun a => 2 ^ a * 100)
        rw [hk, Nat.add_sub_cancel, List.range'_succ, List.map_cons, hrec]

/-- Claim C5: for every retried task, `retryTask` awaits a backoff delay of
exactly `2 ^ attempt * 100` ms between consecutive attempts (attempt
numbering starting at 1: the delay following failed attempt `a` and preceding
attempt `a + 1` is `2 ^ a * 100` ms), and awaits no backoff delay after the
last failed attempt — the list of awaited delays is precisely
`[2^1 * 100, ..., 2^(attempts-1) * 100]`, one delay fewer than attempts. -/
theorem retryTask_backoff {α : Type} (o : Nat → Except String α) (m : Nat)
    (hm : 1 ≤ m) :
    (ParallelExecutor.retryTask o m).delays =
      (List.range' 1 ((ParallelExecutor.retryTask o m).attempts - 1)).map
        (fun a => 2 ^ a * 100) := by
  have h := retryLoop_delays o m m 1 (by omega)
  exact h

/-- Witness for C5: a task failing every attempt under `maxRetries = 3` makes
3 attempts awaiting delays `[200, 400]` — `2^1*100` before attempt 2,
`2^2*100` before attempt 3, and nothing after the final failure. -/
theorem retryTask_backoff_witness :
    (ParallelExecutor.retryTask (fun _ => (Except.error "e" : Except String Nat)) 3).delays =
      (List.range' 1
        ((ParallelExecutor.retryTask (fun _ => (Except.error "e" : Except String Nat)) 3).attempts - 1)).map
        (fun a => 2 ^ a * 100)
    ∧ (ParallelExecutor.retryTask (fun _ => (Except.error "e" : Except String Nat)) 3).delays
        = [200, 400] :=
  ⟨retryTask_backoff _ 3 (by omega), rfl⟩

/-- Claim C10: `executeParallel` on an empty task list returns an empty
results list, throws nothing (`threw = false`), and never invokes the
progress callback (`progress = []`). -/
theorem executeParallel_empty (β : Type) (cfg : ParallelConfig) :
    ParallelExecutor.executeParallel cfg ([] : List (TaskModel β)) [] =
      ⟨[], [], [], [], false⟩ := rfl

/-- Claim C1 (code bug): a single-task batch whose task fails once and then
succeeds, under `retryFailed = true` and `maxRetries = 3`.  The retry makes
one attempt and succeeds with 42 (recorded in `retries`), yet the first
attempt's error was already pushed onto `errors`, the successful retry value
is never written to the results slot (it stays `none`/undefined), no progress
callback fires, and the batch still throws the aggregate error. -/
theorem executeParallel_retry_success_still_throws :
    ParallelExecutor.executeParallel ⟨4, 30000, true, 3⟩ [c1Task] [0] =
      ⟨[none], ["boom"], [], [(0, Except.ok (some 42))], true⟩
    ∧ batchError (ParallelExecutor.executeParallel ⟨4, 30000, true, 3⟩ [c1Task] [0]) =
        some "Parallel execution failed: boom" :=
  ⟨rfl, rfl⟩

/-- Claim C8: `shouldGC` returns `true` iff the sampled heap-used in MB
(`heapUsed / 1024 / 1024`) strictly exceeds `gcThreshold`; at exactly the
threshold it returns `false`. -/
theorem shouldGC_strict_threshold (cfg : MemoryConfig) (u : MemUsage) :
    (MemoryOptimizer.shouldGC cfg u = true ↔
      u.heapUsed / 1024 / 1024 > cfg.gcThreshold)
    ∧ (u.heapUsed / 1024 / 1024 = cfg.gcThreshold →
        MemoryOptimizer.shouldGC cfg u = false) := by
  constructor
  · exact decide_eq_true_iff
  · intro h
    simp [MemoryOptimizer.shouldGC, h]

/-- Witness for C8: a heap-used sample of exactly `512 MiB` against the
default threshold of 512 MB yields `shouldGC = false`. -/
theorem shouldGC_strict_threshold_witness :
    ((⟨(512 : ℚ) * 1048576, 0, 0, 0⟩ : MemUsage).heapUsed / 1024 / 1024 =
      (⟨512, false, 1024⟩ : MemoryConfig).gcThreshold)
    ∧ MemoryOptimizer.shouldGC ⟨512, false, 1024⟩ ⟨(512 : ℚ) * 1048576, 0, 0, 0⟩ = false :=
  ⟨by norm_num,
    (shouldGC_strict_threshold ⟨512, false, 1024⟩ ⟨(512 : ℚ) * 1048576, 0, 0, 0⟩).2
      (by norm_num)⟩

/-- Claim C2 (code bug): `executeParallel` starts every task synchronously in
`tasks.map` before any settlement is processed, never consulting
`cfg.maxWorkers`; so at the instant all `n` tasks have started (the prefix of
length `n` of the trace), the number of in-flight tasks is `n` — whenever the
batch is larger than `maxWorkers`, the bound claimed by the spec is exceeded. -/
theorem executeParallel_exceeds_maxWorkers (cfg : ParallelConfig) (n : Nat)
    (order : List Nat) (h : cfg.maxWorkers < n) :
    cfg.maxWorkers < inFlight ((executeParallelTrace n order).take n) := by
  have hlen : ((List.range n).map ExecEvent.start).length = n := by simp
  have htake : (executeParallelTrace n order).take n =
      (List.range n).map ExecEvent.start := by
    unfold executeParallelTrace
    exact List.take_left' hlen
  have h1 : ((List.range n).map ExecEvent.start).filter ExecEvent.isStart =
      (List.range n).map ExecEvent.start := by
    rw [List.filter_eq_self]
    intro a ha
    obtain ⟨i, _, rfl⟩ := List.mem_map.mp ha
    rfl
  have h2 : ((List.range n).map ExecEvent.start).filter ExecEvent.isSettle = [] := by
    rw [List.filter_eq_nil_iff]
    intro a ha
    obtain ⟨i, _, rfl⟩ := List.mem_map.mp ha
    simp [ExecEvent.isSettle]
  unfold inFlight
  rw [htake, h1, h2, hlen]
  simpa using h

/-- Witness for C2: with `maxWorkers = 1` and a 2-task batch, both tasks are
in flight at once — the claimed bound 1 is violated. -/
theorem executeParallel_exceeds_maxWorkers_witness :
    (⟨1, 30000, true, 3⟩ : ParallelConfig).maxWorkers < 2
    ∧ (⟨1, 30000, true, 3⟩ : ParallelConfig).maxWorkers <
        inFlight ((executeParallelTrace 2 [0, 1]).take 2) :=
  ⟨by decide, executeParallel_exceeds_maxWorkers ⟨1, 30000, true, 3⟩ 2 [0, 1] (by decide)⟩

/-- Settlement equation: index out of range (cannot arise for a valid
completion order) leaves the state unchanged. -/
theorem execSettle_of_none {β : Type} (cfg : ParallelConfig)
    (tasks : List (TaskModel β)) (st : ExecState β) (i : Nat)
    (h : tasks[i]? = none) : execSettle cfg tasks st i = st := by
  simp [execSettle, h]

/-- Settlement equation for a first attempt that fulfils with `v`. -/
theorem execSettle_of_ok {β : Type} (cfg : ParallelConfig)
    (tasks : List (TaskModel β)) (st : ExecState β) (i : Nat) (t : TaskModel β)
    (v : Option β) (h : tasks[i]? = some t) (h2 : t 1 = Except.ok v) :
    execSettle cfg tasks st i =
      { st with slots := st.slots.set i v,
                progress := st.progress ++
                  [(countDefined (st.slots.set i v), tasks.length)] } := by
  simp [execSettle, h, h2]

/-- Settlement equation for a first attempt that rejects with `e`. -/
theorem execSettle_of_error {β : Type} (cfg : ParallelConfig)
    (tasks : List (TaskModel β)) (st : ExecState β) (i : Nat) (t : TaskModel β)
    (e : String) (h : tasks[i]? = some t) (h2 : t 1 = Except.error e) :
    execSettle cfg tasks st i =
      if cfg.retryFailed then
        { st with errors := st.errors ++ [e],
                  retries := st.retries ++
                    [(i, (ParallelExecutor.retryTask (fun a => t (a + 1))
                      cfg.maxRetries).result)] }
      else { st with errors := st.errors ++ [e] } := by
  simp only [execSettle, h, h2]

/-- `firstAttemptOk` unfolded at an in-range index. -/
theorem firstAttemptOk_of_some {β : Type} (tasks : List (TaskModel β)) (i : Nat)
    (t : TaskModel β) (h : tasks[i]? = some t) :
    firstAttemptOk tasks i = isOkB (t 1) := by
  simp [firstAttemptOk, h]

/-- `firstAttemptOk` unfolded at an out-of-range index. -/
theorem firstAttemptOk_of_none {β : Type} (tasks : List (TaskModel β)) (i : Nat)
    (h : tasks[i]? = none) : firstAttemptOk tasks i = false := by
  simp [firstAttemptOk, h]

/-- Processing one settlement appends one progress entry iff the settled
task's first attempt succeeded. -/
theorem execSettle_progress_length {β : Type} (cfg : ParallelConfig)
    (tasks : List (TaskModel β)) (st : ExecState β) (i : Nat) :
    (execSettle cfg tasks st i).progress.length =
      st.progress.length + (if firstAttemptOk tasks i then 1 else 0) := by
  cases h : tasks[i]? with
  | none =>
    rw [execSettle_of_none cfg tasks st i h, firstAttemptOk_of_none tasks i h]
    simp
  | some t =>
    cases h2 : t 1 with
    | ok v =>
      rw [execSettle_of_ok cfg tasks st i t v h h2,
        firstAttemptOk_of_some tasks i t h, h2]
      simp [isOkB]
    | error e =>
      rw [execSettle_of_error cfg tasks st i t e h h2,
        firstAttemptOk_of_some tasks i t h, h2]
      by_cases hr : cfg.retryFailed = true
      · rw [if_pos hr]; simp [isOkB]
      · rw [if_neg hr]; simp [isOkB]

/-- Every progress entry carries the batch size as its second component, an
invariant preserved by each settlement. -/
theorem execSettle_progress_total {β : Type} (cfg : ParallelConfig)
    (tasks : List (TaskModel β)) (st : ExecState β) (i : Nat)
    (h : ∀ p ∈ st.progress, p.2 = tasks.length) :
    ∀ p ∈ (execSettle cfg tasks st i).progress, p.2 = tasks.length := by
  cases hM : tasks[i]? with
  | none => rw [execSettle_of_none cfg tasks st i hM]; exact h
  | some t =>
    cases h2 : t 1 with
    | ok v =>
      rw [execSettle_of_ok cfg tasks st i t v hM h2]
      intro p hp
      simp only [List.mem_append, List.mem_singleton] at hp
      cases hp with
      | inl hp => exact h p hp
      | inr hp => rw [hp]
    | error e =>
      rw [execSettle_of_error cfg tasks st i t e hM h2]
      by_cases hr : cfg.retryFailed = true
      · rw [if_pos hr]; exact h
      · rw [if_neg hr]; exact h

/-- Folding the settlements of `order` grows the progress list by exactly one
entry per first-attempt success in `order`. -/
theorem foldl_execSettle_progress_length {β : Type} (cfg : ParallelConfig)
    (tasks : List (TaskModel β)) :
    ∀ (order : List Nat) (st : ExecState β),
      ((order.foldl (execSettle cfg tasks) st).progress).length =
        st.progress.length +
          (order.filter (fun i => firstAttemptOk tasks i)).length := by
  intro order
  induction order with
  | nil => intro st; simp
  | cons i rest ih =>
    intro st
    rw [List.foldl_cons, ih, execSettle_progress_length, List.filter_cons]
    by_cases hf : firstAttemptOk tasks i
    · simp only [hf, if_true, if_pos]
      simp
      omega
    · simp only [hf, if_false]
      simp

/-- Folding settlements preserves the batch-size invariant of progress
entries. -/
theorem foldl_execSettle_progress_total {β : Type} (cfg : ParallelConfig)
    (tasks : List (TaskModel β)) :
    ∀ (order : List Nat) (st : ExecState β),
      (∀ p ∈ st.progress, p.2 = tasks.length) →
      ∀ p ∈ ((order.foldl (execSettle cfg tasks) st).progress),
        p.2 = tasks.length := by
  intro order
  induction order with
  | nil => intro st h; simpa using h
  | cons i rest ih =>
    intro st h
    rw [List.foldl_cons]
    exact ih _ (execSettle_progress_total cfg tasks st i h)

/-- Claim C4 (amended): the progress callback fires exactly once per task
whose FIRST attempt succeeds — never on a failure and never on a later
retry's success — and each invocation's second argument is the total task
count.  (The first argument is the count of slots holding a defined value at
that moment, which skips tasks that resolved with an undefined-like value.) -/
theorem executeParallel_progress_shape {β : Type} (cfg : ParallelConfig)
    (tasks : List (TaskModel β)) (order : List Nat) :
    (ParallelExecutor.executeParallel cfg tasks order).progress.length =
      (order.filter (fun i => firstAttemptOk tasks i)).length
    ∧ ∀ p ∈ (ParallelExecutor.executeParallel cfg tasks order).progress,
        p.2 = tasks.length := by
  have hp : (ParallelExecutor.executeParallel cfg tasks order).progress =
      (order.foldl (execSettle cfg tasks)
        ⟨List.replicate tasks.length none, [], [], []⟩).progress := rfl
  constructor
  · rw [hp, foldl_execSettle_progress_length]
    simp
  · rw [hp]
    refine foldl_execSettle_progress_total cfg tasks order _ ?_
    intro p hp2
    simp at hp2

/-- Counterexample to C4 as stated: in the 3-task batch where `taskB` throws
twice and then succeeds (under `maxRetries = 3`), the progress callback fires
only twice — `[(1,3), (2,3)]`, for the two first-attempt successes — not 3
times ending at `(3,3)`: neither `taskB`'s failure nor its successful retry
triggers it. -/
theorem executeParallel_progress_cex :
    (ParallelExecutor.executeParallel cfgRetry [taskA, taskB, taskC] [0, 1, 2]).progress
      = [(1, 3), (2, 3)]
    ∧ (ParallelExecutor.executeParallel cfgRetry [taskA, taskB, taskC] [0, 1, 2]).progress.length
        ≠ 3 :=
  ⟨rfl, by decide⟩

/-- Witness for the amended C4 on the concrete 3-task scenario. -/
theorem executeParallel_progress_shape_witness :
    (ParallelExecutor.executeParallel cfgRetry [taskA, taskB, taskC] [0, 1, 2]).progress.length =
      ([0, 1, 2].filter (fun i => firstAttemptOk [taskA, taskB, taskC] i)).length
    ∧ (1, 3).2 = [taskA, taskB, taskC].length :=
  ⟨(executeParallel_progress_shape cfgRetry [taskA, taskB, taskC] [0, 1, 2]).1,
    (executeParallel_progress_shape cfgRetry [taskA, taskB, taskC] [0, 1, 2]).2 (1, 3)
      (by decide)⟩

/-- One settlement step cannot give slot `i` a defined value when task `i`'s
first attempt fails or fulfils with the undefined-like value. -/
theorem execSettle_slot_undef {β : Type} (cfg : ParallelConfig)
    (tasks : List (TaskModel β)) (i : Nat) (t : TaskModel β)
    (ht : tasks[i]? = some t)
    (hbad : isOkB (t 1) = false ∨ t 1 = Except.ok none)
    (st : ExecState β) (j : Nat) (hst : st.slots[i]? = some none) :
    (execSettle cfg tasks st j).slots[i]? = some none := by
  cases hj : tasks[j]? with
  | none => rw [execSettle_of_none cfg tasks st j hj]; exact hst
  | some u =>
    cases hu : u 1 with
    | error e =>
      rw [execSettle_of_error cfg tasks st j u e hj hu]
      by_cases hr : cfg.retryFailed = true
      · rw [if_pos hr]; exact hst
      · rw [if_neg hr]; exact hst
    | ok v =>
      rw [execSettle_of_ok cfg tasks st j u v hj hu]
      show (st.slots.set j v)[i]? = some none
      by_cases hij : j = i
      · subst hij
        rw [ht] at hj
        injection hj with hj
        subst hj
        cases hbad with
        | inl hb => rw [hu] at hb; simp [isOkB] at hb
        | inr hb =>
          rw [hu] at hb
          injection hb with hb
          subst hb
          obtain ⟨hlen, -⟩ := List.getElem?_eq_some.mp hst
          exact List.getElem?_set_eq_of_lt none hlen
      · rw [List.getElem?_set_ne hij]
        exact hst

/-- Folding settlements keeps slot `i` undefined when task `i`'s first
attempt fails or fulfils with the undefined-like value. -/
theorem foldl_execSettle_slot_undef {β : Type} (cfg : ParallelConfig)
    (tasks : List (TaskModel β)) (i : Nat) (t : TaskModel β)
    (ht : tasks[i]? = some t)
    (hbad : isOkB (t 1) = false ∨ t 1 = Except.ok none) :
    ∀ (order : List Nat) (st : ExecState β), st.slots[i]? = some none →
      ((order.foldl (execSettle cfg tasks) st).slots)[i]? = some none := by
  intro order
  induction order with
  | nil => intro st h; simpa using h
  | cons j rest ih =>
    intro st h
    rw [List.foldl_cons]
    exact ih _ (execSettle_slot_undef cfg tasks i t ht hbad st j h)

/-- Claim C3 (amended): `executeParallel`'s result slots carry no
success/failure tag — a slot is the raw task value, and the slot of a task
whose first attempt failed (terminally or not) holds exactly the
undefined-like value `none`, the same value as the slot of a task that
legitimately fulfilled with undefined: undefined is the sentinel for
absence. -/
theorem executeParallel_failed_slot_undefined {β : Type} (cfg : ParallelConfig)
    (tasks : List (TaskModel β)) (order : List Nat) (i : Nat) (t : TaskModel β)
    (hi : i < tasks.length) (ht : tasks[i]? = some t)
    (hbad : isOkB (t 1) = false ∨ t 1 = Except.ok none) :
    (ParallelExecutor.executeParallel cfg tasks order).results[i]? = some none := by
  have hr : (ParallelExecutor.executeParallel cfg tasks order).results =
      (order.foldl (execSettle cfg tasks)
        ⟨List.replicate tasks.length none, [], [], []⟩).slots := rfl
  rw [hr]
  refine foldl_execSettle_slot_undef cfg tasks i t ht hbad order _ ?_
  simp [List.getElem?_replicate, hi]

/-- Counterexample to C3 as stated: with one terminally failing task and one
task that fulfils with undefined, the two result slots hold the identical
value (`none`) — a failed slot is NOT distinguishable from an undefined-like
success — and the progress count after the undefined success is 0, showing
undefined is used as the sentinel for absence. -/
theorem executeParallel_slot_sentinel_cex :
    (ParallelExecutor.executeParallel cfgRetry [taskDead, taskUndef] [0, 1]).results[0]? =
      (ParallelExecutor.executeParallel cfgRetry [taskDead, taskUndef] [0, 1]).results[1]?
    ∧ (ParallelExecutor.executeParallel cfgRetry [taskDead, taskUndef] [0, 1]).results
        = [none, none]
    ∧ (ParallelExecutor.executeParallel cfgRetry [taskDead, taskUndef] [0, 1]).progress
        = [(0, 2)] :=
  ⟨rfl, rfl, rfl⟩

/-- Witness for the amended C3 at a concrete input: the terminally failing
task's slot reads as the undefined-like value. -/
theorem executeParallel_failed_slot_undefined_witness :
    0 < [taskDead, taskUndef].length
    ∧ (ParallelExecutor.executeParallel cfgRetry [taskDead, taskUndef] [0, 1]).results[0]? =
        some none :=
  ⟨by decide,
    executeParallel_failed_slot_undefined cfgRetry [taskDead, taskUndef] [0, 1] 0 taskDead
      (by decide) rfl (Or.inl rfl)⟩

/-- `get` equation: enabled cache, no file at the key's path — miss. -/
theorem CacheManager.get_of_missing (cfg : CacheConfig) (fs : Fs) (now : Int)
    (key : String) (hEn : cfg.enabled = true)
    (hf : fs.findFile (CacheManager.getFilePath cfg key) = none) :
    CacheManager.get cfg fs now key = (none, fs) := by
  simp [CacheManager.get, hEn, hf]

/-- `get` equation: enabled cache, a file found at the key's path — the TTL
check decides between eviction and a hit. -/
theorem CacheManager.get_of_found (cfg : CacheConfig) (fs : Fs) (now : Int)
    (key : String) (f : CacheFile) (hEn : cfg.enabled = true)
    (hf : fs.findFile (CacheManager.getFilePath cfg key) = some f) :
    CacheManager.get cfg fs now key =
      if now - f.mtime > cfg.maxAge then
        (none, fs.eraseFile (CacheManager.getFilePath cfg key))
      else (some f.content, fs) := by
  simp only [CacheManager.get, hEn, hf]
  simp

/-- Claim C6: `get` never returns an entry whose age strictly exceeds
`maxAge` — any returned value comes from a file whose age is at most
`maxAge` — and when the entry found at read time is older than `maxAge`,
`get` deletes the backing file and returns `null`; the freshness check runs
on every `get`, independently of `cleanup`. -/
theorem cacheManager_get_never_stale (cfg : CacheConfig) (fs : Fs) (now : Int)
    (key : String) (hEn : cfg.enabled = true) :
    (∀ v, (CacheManager.get cfg fs now key).1 = some v →
      ∃ f, fs.findFile (CacheManager.getFilePath cfg key) = some f ∧
        now - f.mtime ≤ cfg.maxAge ∧ v = f.content)
    ∧ (∀ f, fs.findFile (CacheManager.getFilePath cfg key) = some f →
        now - f.mtime > cfg.maxAge →
        CacheManager.get cfg fs now key =
          (none, fs.eraseFile (CacheManager.getFilePath cfg key))) := by
  constructor
  · intro v hv
    cases hf : fs.findFile (CacheManager.getFilePath cfg key) with
    | none =>
      rw [CacheManager.get_of_missing cfg fs now key hEn hf] at hv
      simp at hv
    | some f =>
      rw [CacheManager.get_of_found cfg fs now key f hEn hf] at hv
      by_cases hAge : now - f.mtime > cfg.maxAge
      · rw [if_pos hAge] at hv; simp at hv
      · rw [if_neg hAge] at hv
        simp only [Prod.fst] at hv
        injection hv with hv
        exact ⟨f, rfl, le_of_not_lt hAge, hv.symm⟩
  · intro f hf hAge
    rw [CacheManager.get_of_found cfg fs now key f hEn hf, if_pos hAge]

/-- Witness for C6: a 1s-TTL cache holding an entry written at time 0, read
at time 2000 — `get` returns `null` and erases the backing file. -/
theorem cacheManager_get_never_stale_witness :
    CacheManager.get cacheCfgShort fsStale 2000 "k" =
      (none, Fs.eraseFile fsStale (CacheManager.getFilePath cacheCfgShort "k")) :=
  (cacheManager_get_never_stale cacheCfgShort fsStale 2000 "k" rfl).2
    ⟨Json.num 7, 0⟩ rfl (by decide)

/-- A freshly written file is found at its own path with the written content
and timestamp. -/
theorem Fs.findFile_writeFile_self (fs : Fs) (p : CachePath) (c : Json)
    (t : Int) : (fs.writeFile p c t).findFile p = some ⟨c, t⟩ := by
  unfold Fs.writeFile Fs.findFile
  rw [List.find?_cons_of_pos _ (by simp)]
  rfl

/-- Claim C7: with the cache enabled and its directory existing, `set`
followed by `get` on the same key within `maxAge` returns exactly the stored
value (deep-equality holds because the JSON round-trip is the identity on
JSON-serializable values). -/
theorem cacheManager_set_get_roundtrip (cfg : CacheConfig) (fs : Fs)
    (t now : Int) (key : String) (v : Json) (hEn : cfg.enabled = true)
    (hDir : cfg.directory ∈ fs.dirs) (hFresh : now - t ≤ cfg.maxAge) :
    (CacheManager.get cfg ((CacheManager.set cfg fs t key v).1) now key).1 =
      some v := by
  have hset : (CacheManager.set cfg fs t key v).1 =
      fs.writeFile (CacheManager.getFilePath cfg key) v t := by
    simp [CacheManager.set, hEn, hDir]
  rw [hset,
    CacheManager.get_of_found cfg _ now key ⟨v, t⟩ hEn
      (Fs.findFile_writeFile_self fs _ v t),
    if_neg (not_lt.mpr hFresh)]

/-- Witness for C7: storing 42 under "user:42" at time 0 in an initialised
cache and reading it back at time 500 (within the default 24h TTL) returns
exactly the stored value. -/
theorem cacheManager_set_get_roundtrip_witness :
    (CacheManager.get cacheCfg
      ((CacheManager.set cacheCfg fsWithDir 0 "user:42" (Json.num 42)).1)
      500 "user:42").1 = some (Json.num 42) :=
  cacheManager_set_get_roundtrip cacheCfg fsWithDir 0 500 "user:42"
    (Json.num 42) rfl (by decide) (by decide)

/-- Claim C9: with the cache enabled but its directory never created (`init`
not called), `set` completes without throwing while persisting nothing (the
ENOENT write failure is caught and only logged), and a subsequent `get`
returns `null` — the cache is silently inoperative. -/
theorem cacheManager_no_dir_silent (cfg : CacheConfig) (fs : Fs) (t now : Int)
    (key : String) (v : Json) (hEn : cfg.enabled = true) (hwf : fs.wf)
    (hDir : cfg.directory ∉ fs.dirs) :
    CacheManager.set cfg fs t key v = (fs, true)
    ∧ CacheManager.get cfg fs now key = (none, fs) := by
  have hfind : fs.findFile (CacheManager.getFilePath cfg key) = none := by
    have hnone : fs.files.find?
        (fun e => decide (e.fst = CacheManager.getFilePath cfg key)) = none := by
      rw [List.find?_eq_none]
      intro e he h
      have heq := of_decide_eq_true h
      have hd := hwf e he
      rw [heq] at hd
      exact hDir hd
    simp [Fs.findFile, hnone]
  constructor
  · simp [CacheManager.set, hEn, hDir]
  · exact CacheManager.get_of_missing cfg fs now key hEn hfind

/-- Witness for C9: on the empty filesystem (no `init`), `set` is a logged
no-op and `get` misses. -/
theorem cacheManager_no_dir_silent_witness :
    CacheManager.set cacheCfg fsEmpty 0 "k" (Json.num 1) = (fsEmpty, true)
    ∧ CacheManager.get cacheCfg fsEmpty 5 "k" = (none, fsEmpty) :=
  cacheManager_no_dir_silent cacheCfg fsEmpty 0 5 "k" (Json.num 1) rfl
    (by intro e he; simp [fsEmpty] at he) (by simp [cacheCfg, fsEmpty])
